import Mathlib

/-!
Verification of the client-side navigation controller in
src/exercises/04.router/04.solution.history/src/index.js.

The controller is embedded shallowly: the React component state
(nextLocation, contentPromise, the latestNav ref, the useTransition
pending flag) becomes a record, and the asynchronous callbacks become
explicit steps of a state machine.  A navigation attempt is recorded in
an append-only list; the index of an attempt in that list serves as the
unique token minted for it (the source uses a fresh Symbol, which the
design notes generalise to a fresh counter value).  The settlement of an
attempt's fetch is a separate step carrying the network outcome, so that
overlapping navigations and arbitrary resolution orders are plain lists
of events.

Correspondence with the source:
* fetchContent(location) = fetch("/rsc" + location): rscPath, and the
  fetchContent function below, which returns the platform fetch handle
  unchanged (a response fulfils it whether or not it is a success; only
  a network failure rejects it).
* navigate(nextLocation, { replace = false } = {}): navigateWith (the
  body) and navigate (the default handling of the options argument).
  It sets nextLocation, mints a token that becomes latestNav, starts the
  fetch, and installs the new content promise inside startTransition.
* handlePopState: fetches the externally observed location, sets
  nextLocation and installs the new content promise in a transition; it
  performs no history call and does not touch latestNav.
* the then-callback on the fetch inside navigate: the settle step.  On
  fulfilment it compares the attempt's token with latestNav: if they
  agree it performs the history.replaceState / pushState call and passes
  the response on; otherwise it returns undefined (modelled as a
  fulfilment value of none).  A rejection bypasses the callback and
  rejects the attempt's promise.
* useTransition / use(contentPromise): transitionActive records an
  uncommitted transition; it is cleared when the installed promise
  settles, and a rejection of the installed promise surfaces to the
  error boundary (errorSurfaced).  location is the deferred value of
  nextLocation: it catches up when the installed promise fulfils.
-/

/-- An HTTP response as seen by the client: its success flag and body. -/
structure Resp where
  ok : Bool
  body : String
deriving DecidableEq, Repr

/-- Outcome of the platform fetch for one request: an HTTP response
(success or not) fulfils the fetch promise; a network failure rejects it. -/
inductive FetchOutcome where
  | success (r : Resp)
  | failure
deriving DecidableEq, Repr

/-- State of a fetch handle as returned to the caller. -/
inductive HandleState where
  | fulfilled (r : Resp)
  | rejected
deriving DecidableEq, Repr

/-- The platform fetch: it rejects only on network failure; any HTTP
response, success or not, fulfils the handle. -/
def fetchHandle : FetchOutcome → HandleState
  | .success r => .fulfilled r
  | .failure => .rejected

/-- Request path built by fetchContent: the location prefixed by the
fixed route segment "/rsc". -/
def rscPath (location : String) : String := "/rsc" ++ location

/-- fetchContent(location) = fetch("/rsc" + location): one request to
rscPath location, whose handle is the platform fetch handle unchanged
(no status check, no retry). -/
def fetchContent (location : String) (o : FetchOutcome) : String × HandleState :=
  (rscPath location, fetchHandle o)

/-- Status of one navigation attempt's content promise.  A fulfilment
carries the value the then-callback produced: some response, or none
when the callback returned undefined for a superseded attempt. -/
inductive PromiseStatus where
  | unsettled
  | fulfilled (v : Option Resp)
  | rejected
deriving DecidableEq, Repr

/-- How a navigation attempt was initiated: the initial page load, a
call to navigate, or a popstate event. -/
inductive AttemptKind where
  | initial
  | nav
  | pop
deriving DecidableEq, Repr

/-- One navigation attempt: how it started, its destination, the replace
flag passed to navigate (false for the other kinds), and the status of
its content promise.  Its index in the attempts list is its token. -/
structure Attempt where
  kind : AttemptKind
  loc : String
  replace : Bool
  status : PromiseStatus
deriving DecidableEq, Repr

/-- The state of the Root component together with the browser resources
it touches.  attempts is append-only; installed is the index of the
attempt whose content promise is the current contentPromise state;
latestNav is the token held by the latestNav ref (none before the first
navigate call, matching useRef(null)); histStack is the browser history
stack (head = top entry); histLog records every pushState/replaceState
call as (replace flag, location); requests records every request path
handed to fetch. -/
structure RouterState where
  attempts : List Attempt
  latestNav : Option Nat
  nextLocation : String
  location : String
  histStack : List String
  histLog : List (Bool × String)
  requests : List String
  installed : Nat
  transitionActive : Bool
  errorSurfaced : Bool
deriving DecidableEq, Repr

/-- Module initialisation: initialLocation = getGlobalLocation() and
initialContentPromise = createFromFetch(fetchContent(initialLocation)).
No token is minted (latestNav starts as null) and no transition is
started for the initial load. -/
def initState (initialLocation : String) (h0 : List String) : RouterState :=
  { attempts := [⟨.initial, initialLocation, false, .unsettled⟩]
    latestNav := none
    nextLocation := initialLocation
    location := initialLocation
    histStack := h0
    histLog := []
    requests := [rscPath initialLocation]
    installed := 0
    transitionActive := false
    errorSurfaced := false }

/-- Body of navigate: setNextLocation, mint thisNav and store it in
latestNav, call fetchContent (one request), build the new content
promise and install it inside startTransition. -/
def navigateWith (s : RouterState) (nextLocation : String) (replace : Bool) : RouterState :=
  { s with
    nextLocation := nextLocation
    latestNav := some s.attempts.length
    attempts := s.attempts ++ [⟨.nav, nextLocation, replace, .unsettled⟩]
    requests := s.requests ++ [rscPath nextLocation]
    installed := s.attempts.length
    transitionActive := true }

/-- navigate(nextLocation, { replace = false } = {}): the replace option
defaults to false when absent. -/
def navigate (s : RouterState) (nextLocation : String) (opts : Option Bool := none) :
    RouterState :=
  navigateWith s nextLocation (opts.getD false)

/-- handlePopState: read the externally observed location, set
nextLocation, call fetchContent and install the new content promise in a
transition.  No history call is made and latestNav is not written. -/
def handlePopState (s : RouterState) (nextLocation : String) : RouterState :=
  { s with
    nextLocation := nextLocation
    attempts := s.attempts ++ [⟨.pop, nextLocation, false, .unsettled⟩]
    requests := s.requests ++ [rscPath nextLocation]
    installed := s.attempts.length
    transitionActive := true }

/-- Effect of history.replaceState (overwrite the top entry) and
history.pushState (add a new entry) on the history stack. -/
def applyHistoryCall (replace : Bool) (loc : String) (st : List String) : List String :=
  if replace then loc :: st.tail else loc :: st

/-- Resulting promise status of an attempt whose fetch settles, paired
with whether a history call is performed.  Only the then-callback of a
navigate attempt checks the token and mutates history; the promises of
the initial load and of popstate attempts take the fetch outcome
directly. -/
def resolveOutcome (a : Attempt) (latest : Option Nat) (id : Nat) :
    FetchOutcome → PromiseStatus × Bool
  | .success r =>
    match a.kind with
    | .nav => if latest = some id then (.fulfilled (some r), true) else (.fulfilled none, false)
    | _ => (.fulfilled (some r), false)
  | .failure => (.rejected, false)

/-- Settlement of attempt id, known to be the unsettled attempt a: record
the promise status, perform the history call when the then-callback
commits, and, when the settled promise is the installed contentPromise,
finish the transition — clearing the pending flag, surfacing a rejection
to the error boundary, and letting the deferred location catch up on
fulfilment. -/
def settleWith (s : RouterState) (id : Nat) (a : Attempt) (o : FetchOutcome) : RouterState :=
  let res := resolveOutcome a s.latestNav id o
  let s1 : RouterState :=
    { s with
      attempts := s.attempts.set id { a with status := res.1 }
      histStack := if res.2 then applyHistoryCall a.replace a.loc s.histStack else s.histStack
      histLog := if res.2 then s.histLog ++ [(a.replace, a.loc)] else s.histLog }
  if id = s.installed then
    { s1 with
      transitionActive := false
      errorSurfaced := if res.1 = PromiseStatus.rejected then true else s.errorSurfaced
      location := if res.1 = PromiseStatus.rejected then s.location else s.nextLocation }
  else s1

/-- Settlement of the fetch of attempt id with outcome o.  A promise
settles at most once and an unknown id does nothing. -/
def settle (s : RouterState) (id : Nat) (o : FetchOutcome) : RouterState :=
  match s.attempts[id]? with
  | none => s
  | some a => if a.status = PromiseStatus.unsettled then settleWith s id a o else s

/-- One externally visible event of the controller. -/
inductive Event where
  | nav (loc : String) (replace : Bool)
  | pop (loc : String)
  | settle (id : Nat) (o : FetchOutcome)
deriving DecidableEq, Repr

/-- Step function of the controller. -/
def step (s : RouterState) : Event → RouterState
  | .nav loc r => navigateWith s loc r
  | .pop loc => handlePopState s loc
  | .settle id o => settle s id o

/-- Run a list of events from a state. -/
def run (s : RouterState) (evs : List Event) : RouterState := evs.foldl step s

/-- Event of initiating navigation to a (location, replace) pair. -/
def navEvent (p : String × Bool) : Event := Event.nav p.1 p.2

/-- The part of the router state the claims compare across runs: the
published RouterContext fields, the browser history, and the attempt
whose content promise is installed.  Request and attempt bookkeeping
indices are excluded because they only count how many attempts happened. -/
structure Observable where
  nextLocation : String
  location : String
  histStack : List String
  histLog : List (Bool × String)
  transitionActive : Bool
  errorSurfaced : Bool
  installedAttempt : Option Attempt
deriving DecidableEq, Repr

/-- Observable projection of a state. -/
def observable (s : RouterState) : Observable :=
  ⟨s.nextLocation, s.location, s.histStack, s.histLog,
    s.transitionActive, s.errorSurfaced, s.attempts[s.installed]?⟩

/-- A state the controller can actually be in: reached from some initial
load by a list of events. -/
def Reachable (s : RouterState) : Prop :=
  ∃ l0 h0 evs, s = run (initState l0 h0) evs

/-- Structural invariants of reachable states: the installed promise is
the one of the most recent attempt; an installed navigate attempt is
always the latest one; the latest token indexes an existing attempt. -/
def RouterInv (s : RouterState) : Prop :=
  s.installed + 1 = s.attempts.length ∧
  (∀ a, s.attempts[s.installed]? = some a → a.kind = AttemptKind.nav →
    s.latestNav = some s.installed) ∧
  (∀ t, s.latestNav = some t → t < s.attempts.length)

example :
    (run (initState "/" []) [.nav "/a" false, .nav "/b" false,
      .settle 1 (.success ⟨true, "A"⟩), .settle 2 (.success ⟨true, "B"⟩)]).histStack
      = ["/b"] := by decide

example :
    (run (initState "/" []) [.nav "/a" false, .pop "/b",
      .settle 1 (.success ⟨true, "A"⟩)]).histLog = [(false, "/a")] := by decide

/-! Case analysis and framing lemmas for the settle step. -/

lemma settle_cases (s : RouterState) (id : Nat) (o : FetchOutcome) :
    settle s id o = s ∨
    ∃ a, s.attempts[id]? = some a ∧ a.status = PromiseStatus.unsettled ∧
      settle s id o = settleWith s id a o := by
  unfold settle
  split
  · exact Or.inl rfl
  · rename_i a h
    by_cases hs : a.status = PromiseStatus.unsettled
    · exact Or.inr ⟨a, h, hs, by simp [hs]⟩
    · exact Or.inl (by simp [hs])

lemma settle_of_unsettled {s : RouterState} {id : Nat} {a : Attempt} (o : FetchOutcome)
    (h : s.attempts[id]? = some a) (hs : a.status = PromiseStatus.unsettled) :
    settle s id o = settleWith s id a o := by
  unfold settle
  rw [h]
  simp [hs]

lemma settle_of_settled {s : RouterState} {id : Nat} {a : Attempt} (o : FetchOutcome)
    (h : s.attempts[id]? = some a) (hs : a.status ≠ PromiseStatus.unsettled) :
    settle s id o = s := by
  unfold settle
  rw [h]
  simp [hs]

lemma resolveOutcome_snd_false (a : Attempt) (latest : Option Nat) (id : Nat)
    (o : FetchOutcome) (h : latest ≠ some id) :
    (resolveOutcome a latest id o).2 = false := by
  rcases a with ⟨k, l, rep, st⟩
  cases o <;> cases k <;> simp [resolveOutcome, h]

/-- A settle whose attempt is neither the installed promise nor the
latest token only records the promise status: every other field is
unchanged, and so is every other attempt. -/
lemma settle_quiet_eq (s : RouterState) (id : Nat) (o : FetchOutcome)
    (hni : id ≠ s.installed) (hnl : s.latestNav ≠ some id) :
    ∃ atts, settle s id o = { s with attempts := atts } ∧
      (∀ j, j ≠ id → atts[j]? = s.attempts[j]?) ∧
      atts.length = s.attempts.length := by
  rcases settle_cases s id o with h | ⟨a, ha, hs, h⟩
  · exact ⟨s.attempts, by rw [h], fun _ _ => rfl, rfl⟩
  · refine ⟨s.attempts.set id { a with status := (resolveOutcome a s.latestNav id o).1 },
      ?_, fun j hj => List.getElem?_set_ne (Ne.symm hj), List.length_set ..⟩
    rw [h]
    unfold settleWith
    simp [resolveOutcome_snd_false a s.latestNav id o hnl, hni]

lemma settle_quiet_observable (s : RouterState) (id : Nat) (o : FetchOutcome)
    (hni : id ≠ s.installed) (hnl : s.latestNav ≠ some id) :
    observable (settle s id o) = observable s := by
  obtain ⟨atts, heq, hget, -⟩ := settle_quiet_eq s id o hni hnl
  rw [heq]
  unfold observable
  simp [hget s.installed (Ne.symm hni)]

/-- A settle of the latest, installed, still unsettled navigate attempt
with a successful response: the history call is performed, the promise
fulfils with the response, the transition commits and the deferred
location catches up. -/
lemma settle_commit (s : RouterState) (id : Nat) (loc : String) (rep : Bool) (r : Resp)
    (ha : s.attempts[id]? = some ⟨AttemptKind.nav, loc, rep, PromiseStatus.unsettled⟩)
    (hl : s.latestNav = some id) (hi : id = s.installed) :
    settle s id (FetchOutcome.success r) =
      { s with
        attempts := s.attempts.set id ⟨AttemptKind.nav, loc, rep, .fulfilled (some r)⟩
        histStack := applyHistoryCall rep loc s.histStack
        histLog := s.histLog ++ [(rep, loc)]
        transitionActive := false
        location := s.nextLocation } := by
  rw [settle_of_unsettled _ ha rfl]
  unfold settleWith resolveOutcome
  simp [hl, ← hi]

lemma settle_latestNav (s : RouterState) (id : Nat) (o : FetchOutcome) :
    (settle s id o).latestNav = s.latestNav := by
  rcases settle_cases s id o with h | ⟨a, -, -, h⟩ <;> rw [h]
  unfold settleWith
  by_cases hi : id = s.installed <;> simp [hi]

lemma settle_installed (s : RouterState) (id : Nat) (o : FetchOutcome) :
    (settle s id o).installed = s.installed := by
  rcases settle_cases s id o with h | ⟨a, -, -, h⟩ <;> rw [h]
  unfold settleWith
  by_cases hi : id = s.installed <;> simp [hi]

lemma settle_attempts_length (s : RouterState) (id : Nat) (o : FetchOutcome) :
    (settle s id o).attempts.length = s.attempts.length := by
  rcases settle_cases s id o with h | ⟨a, -, -, h⟩ <;> rw [h]
  unfold settleWith
  by_cases hi : id = s.installed <;> simp [hi]

lemma settle_requests (s : RouterState) (id : Nat) (o : FetchOutcome) :
    (settle s id o).requests = s.requests := by
  rcases settle_cases s id o with h | ⟨a, -, -, h⟩ <;> rw [h]
  unfold settleWith
  by_cases hi : id = s.installed <;> simp [hi]

lemma settleWith_attempts (s : RouterState) (id : Nat) (a : Attempt) (o : FetchOutcome) :
    (settleWith s id a o).attempts =
      s.attempts.set id { a with status := (resolveOutcome a s.latestNav id o).1 } := by
  unfold settleWith
  by_cases hi : id = s.installed <;> simp [hi]

lemma settle_attempts_get (s : RouterState) (id : Nat) (o : FetchOutcome) (j : Nat) :
    (settle s id o).attempts[j]? = s.attempts[j]? ∨
    ∃ a, s.attempts[j]? = some a ∧
      (settle s id o).attempts[j]? =
        some { a with status := (resolveOutcome a s.latestNav id o).1 } := by
  rcases settle_cases s id o with h | ⟨a, ha, hs, h⟩
  · exact Or.inl (by rw [h])
  · by_cases hj : j = id
    · subst hj
      refine Or.inr ⟨a, ha, ?_⟩
      rw [h, settleWith_attempts]
      have hlt : j < s.attempts.length := (List.getElem?_eq_some_iff.mp ha).1
      exact List.getElem?_set_self hlt
    · refine Or.inl ?_
      rw [h, settleWith_attempts]
      exact List.getElem?_set_ne (fun hh => hj hh.symm)

/-! Invariants of reachable states. -/

lemma routerInv_init (l0 : String) (h0 : List String) : RouterInv (initState l0 h0) := by
  refine ⟨rfl, ?_, ?_⟩
  · intro a ha hk
    simp [initState] at ha
    rw [← ha] at hk
    simp at hk
  · intro t ht
    simp [initState] at ht

lemma routerInv_step (s : RouterState) (e : Event) (h : RouterInv s) :
    RouterInv (step s e) := by
  obtain ⟨hlen, hinst, hlt⟩ := h
  cases e with
  | nav loc r =>
    refine ⟨by simp [step, navigateWith, ← hlen], ?_, ?_⟩
    · intro a _ _
      simp [step, navigateWith, ← hlen]
    · intro t ht
      simp [step, navigateWith] at ht ⊢
      omega
  | pop loc =>
    refine ⟨by simp [step, handlePopState, ← hlen], ?_, ?_⟩
    · intro a ha hk
      simp [step, handlePopState] at ha
      rw [← ha] at hk
      simp at hk
    · intro t ht
      simp [step, handlePopState] at ht ⊢
      exact Nat.lt_succ_of_lt (hlt t ht)
  | settle id o =>
    simp only [step]
    refine ⟨?_, ?_, ?_⟩
    · rw [settle_installed, settle_attempts_length]
      exact hlen
    · intro a ha hk
      rw [settle_installed, settle_latestNav]
      rw [settle_installed] at ha
      rcases settle_attempts_get s id o s.installed with hg | ⟨a1, ha1, hg⟩
      · rw [hg] at ha
        exact hinst a ha hk
      · rw [hg] at ha
        have hka : ({ a1 with status := (resolveOutcome a1 s.latestNav id o).1 } : Attempt)
            = a := Option.some_inj.mp ha
        rw [← hka] at hk
        exact hinst a1 ha1 hk
    · intro t ht
      rw [settle_attempts_length]
      rw [settle_latestNav] at ht
      exact hlt t ht

lemma reachable_inv (s : RouterState) (h : Reachable s) : RouterInv s := by
  obtain ⟨l0, h0, evs, rfl⟩ := h
  induction evs using List.reverseRecOn with
  | nil => exact routerInv_init l0 h0
  | append_singleton evs e ih =>
    rw [run, List.foldl_append]
    exact routerInv_step _ e ih

/-! The latest-wins argument.  After a burst of navigate calls the state
has a characteristic shape: the last minted token is latest, its attempt
is installed and unsettled, and neither history nor the error flag has
been touched.  Settling any other attempt leaves that shape (and the
observables) alone; settling the latest attempt commits, after which
every further settle is inert. -/

/-- Shape of the state after navigations were initiated, the last one to
lk with replace flag rk, while none of their fetches has settled:
m is the latest token, its attempt is installed and unsettled, history
(initially h0) and the error flag are untouched and the deferred
location still shows l0. -/
def PendShape (m : Nat) (lk : String) (rk : Bool) (h0 : List String) (l0 : String)
    (s : RouterState) : Prop :=
  s.latestNav = some m ∧ s.installed = m ∧
  s.attempts[m]? = some ⟨AttemptKind.nav, lk, rk, PromiseStatus.unsettled⟩ ∧
  s.nextLocation = lk ∧ s.histStack = h0 ∧ s.histLog = [] ∧
  s.transitionActive = true ∧ s.errorSurfaced = false ∧ s.location = l0

/-- Shape of the state once the latest attempt m committed with response
R: exactly one history call was made, for the final destination, the
transition is finished and the installed promise carries R. -/
def DoneShape (m : Nat) (lk : String) (rk : Bool) (h0 : List String) (R : Resp)
    (s : RouterState) : Prop :=
  s.latestNav = some m ∧ s.installed = m ∧
  s.attempts[m]? = some ⟨AttemptKind.nav, lk, rk, PromiseStatus.fulfilled (some R)⟩ ∧
  s.nextLocation = lk ∧ s.histStack = applyHistoryCall rk lk h0 ∧
  s.histLog = [(rk, lk)] ∧ s.transitionActive = false ∧
  s.errorSurfaced = false ∧ s.location = lk

lemma pendShape_settle_other {m : Nat} {lk : String} {rk : Bool} {h0 : List String}
    {l0 : String} {s : RouterState} (h : PendShape m lk rk h0 l0 s)
    (j : Nat) (o : FetchOutcome) (hj : j ≠ m) :
    PendShape m lk rk h0 l0 (settle s j o) := by
  obtain ⟨h1, h2, h3, h4, h5, h6, h7, h8, h9⟩ := h
  obtain ⟨atts, heq, hget, -⟩ := settle_quiet_eq s j o (by rw [h2]; exact hj)
    (by rw [h1]; intro hc; exact hj (Option.some_inj.mp hc).symm)
  rw [heq]
  exact ⟨h1, h2, by rw [hget m (fun hh => hj hh.symm)]; exact h3, h4, h5, h6, h7, h8, h9⟩

lemma pendShape_settle_latest {m : Nat} {lk : String} {rk : Bool} {h0 : List String}
    {l0 : String} {s : RouterState} (h : PendShape m lk rk h0 l0 s) (R : Resp) :
    DoneShape m lk rk h0 R (settle s m (FetchOutcome.success R)) := by
  obtain ⟨h1, h2, h3, h4, h5, h6, h7, h8, h9⟩ := h
  rw [settle_commit s m lk rk R h3 h1 h2.symm]
  have hlt : m < s.attempts.length := (List.getElem?_eq_some_iff.mp h3).1
  exact ⟨h1, h2, List.getElem?_set_self hlt, h4, by simp [h5], by simp [h6], rfl, h8, h4⟩

lemma doneShape_settle {m : Nat} {lk : String} {rk : Bool} {h0 : List String} {R : Resp}
    {s : RouterState} (h : DoneShape m lk rk h0 R s) (j : Nat) (o : FetchOutcome) :
    DoneShape m lk rk h0 R (settle s j o) := by
  obtain ⟨h1, h2, h3, h4, h5, h6, h7, h8, h9⟩ := h
  by_cases hj : j = m
  · subst hj
    rw [settle_of_settled o h3 (by simp)]
    exact ⟨h1, h2, h3, h4, h5, h6, h7, h8, h9⟩
  · obtain ⟨atts, heq, hget, -⟩ := settle_quiet_eq s j o (by rw [h2]; exact hj)
      (by rw [h1]; intro hc; exact hj (Option.some_inj.mp hc).symm)
    rw [heq]
    exact ⟨h1, h2, by rw [hget m (fun hh => hj hh.symm)]; exact h3, h4, h5, h6, h7, h8, h9⟩

/-- The observable of a committed latest navigation does not depend on
how many superseded attempts preceded it. -/
lemma doneShape_observable {m : Nat} {lk : String} {rk : Bool} {h0 : List String} {R : Resp}
    {s : RouterState} (h : DoneShape m lk rk h0 R s) :
    observable s = ⟨lk, lk, applyHistoryCall rk lk h0, [(rk, lk)], false, false,
      some ⟨AttemptKind.nav, lk, rk, PromiseStatus.fulfilled (some R)⟩⟩ := by
  obtain ⟨h1, h2, h3, h4, h5, h6, h7, h8, h9⟩ := h
  unfold observable
  rw [h2, h3, h4, h5, h6, h7, h8, h9]

/-- Events that settle the listed attempts with the listed outcomes. -/
def settleEvents (ps : List (Nat × FetchOutcome)) : List Event :=
  ps.map (fun p => Event.settle p.1 p.2)

lemma run_settles_done {m : Nat} {lk : String} {rk : Bool} {h0 : List String} {R : Resp} :
    ∀ (ps : List (Nat × FetchOutcome)) (s : RouterState), DoneShape m lk rk h0 R s →
      DoneShape m lk rk h0 R (run s (settleEvents ps)) := by
  intro ps
  induction ps with
  | nil => intro s h; exact h
  | cons q ps ih =>
    intro s h
    exact ih (settle s q.1 q.2) (doneShape_settle h q.1 q.2)

lemma run_settles_pend {m : Nat} {lk : String} {rk : Bool} {h0 : List String}
    {l0 : String} {R : Resp} :
    ∀ (ps : List (Nat × FetchOutcome)) (s : RouterState), PendShape m lk rk h0 l0 s →
      (∀ p ∈ ps, p.1 = m → p.2 = FetchOutcome.success R) →
      (∃ p ∈ ps, p.1 = m) →
      DoneShape m lk rk h0 R (run s (settleEvents ps)) := by
  intro ps
  induction ps with
  | nil =>
    intro s _ _ hex
    obtain ⟨p, hp, -⟩ := hex
    exact absurd hp (List.not_mem_nil p)
  | cons q ps ih =>
    intro s hpend hall hex
    by_cases hq : q.1 = m
    · have hout : q.2 = FetchOutcome.success R := hall q (List.mem_cons_self q ps) hq
      have hdone : DoneShape m lk rk h0 R (settle s q.1 q.2) := by
        rw [hq, hout]
        exact pendShape_settle_latest hpend R
      exact run_settles_done ps (settle s q.1 q.2) hdone
    · have hpend2 := pendShape_settle_other hpend q.1 q.2 hq
      have hex2 : ∃ p ∈ ps, p.1 = m := by
        obtain ⟨p, hp, hpm⟩ := hex
        rcases List.mem_cons.mp hp with rfl | hp2
        · exact absurd hpm hq
        · exact ⟨p, hp2, hpm⟩
      exact ih (settle s q.1 q.2) hpend2 (fun p hp => hall p (List.mem_cons_of_mem q hp)) hex2

/-- A navigate call puts the state into the pending shape for the token
it mints, provided history and the error flag are untouched. -/
lemma navigateWith_pendShape (s : RouterState) (lk : String) (rk : Bool)
    (hlog : s.histLog = []) (herr : s.errorSurfaced = false) :
    PendShape s.attempts.length lk rk s.histStack s.location (navigateWith s lk rk) := by
  refine ⟨rfl, rfl, ?_, rfl, rfl, hlog, rfl, herr, rfl⟩
  exact List.getElem?_concat_length ..

/-- A burst of navigate calls leaves history, the history-call log, the
error flag and the deferred location untouched, and adds one attempt per
call. -/
lemma run_navs_frame (ps : List (String × Bool)) :
    ∀ s : RouterState,
      (run s (ps.map navEvent)).histStack = s.histStack ∧
      (run s (ps.map navEvent)).histLog = s.histLog ∧
      (run s (ps.map navEvent)).errorSurfaced = s.errorSurfaced ∧
      (run s (ps.map navEvent)).location = s.location ∧
      (run s (ps.map navEvent)).attempts.length = s.attempts.length + ps.length := by
  induction ps with
  | nil => intro s; exact ⟨rfl, rfl, rfl, rfl, rfl⟩
  | cons q ps ih =>
    intro s
    have hstep : run s ((q :: ps).map navEvent)
        = run (navigateWith s q.1 q.2) (ps.map navEvent) := rfl
    obtain ⟨i1, i2, i3, i4, i5⟩ := ih (navigateWith s q.1 q.2)
    rw [hstep]
    refine ⟨i1, i2, i3, i4, ?_⟩
    rw [i5]
    simp [navigateWith]
    omega

/-- C1.
Latest-wins: for every sequence of navigations initiated via navigate
before any of their fetches resolve — here locs followed by the final
navigation to lk with replace flag rk — and for every order ord in which
those fetches subsequently resolve, the final committed state (browser
history stack, history-call log, and the contentPromise installed in
router state, together with the published locations, pending flag and
error flag) equals the state produced by the final navigation alone; no
navigation initiated before the final one has any observable effect. -/
theorem latest_wins (l0 : String) (h0 : List String)
    (locs : List (String × Bool)) (lk : String) (rk : Bool)
    (ord : List (Fin (locs.length + 1)))
    (hord : ord.Perm (List.finRange (locs.length + 1)))
    (resp : Fin (locs.length + 1) → Resp) :
    observable (run (initState l0 h0)
        ((locs ++ [(lk, rk)]).map navEvent ++
          ord.map (fun i => Event.settle (i.val + 1) (FetchOutcome.success (resp i))))) =
    observable (run (initState l0 h0)
        [navEvent (lk, rk),
          Event.settle 1 (FetchOutcome.success (resp ⟨locs.length, Nat.lt_succ_self _⟩))]) := by
  have hmid : run (initState l0 h0) ((locs ++ [(lk, rk)]).map navEvent)
      = navigateWith (run (initState l0 h0) (locs.map navEvent)) lk rk := by
    simp only [List.map_append, run, List.foldl_append]
    rfl
  obtain ⟨f1, f2, f3, f4, f5⟩ := run_navs_frame locs (initState l0 h0)
  have hlen1 : (initState l0 h0).attempts.length = 1 := rfl
  have h5b : (run (initState l0 h0) (locs.map navEvent)).attempts.length
      = locs.length + 1 := by omega
  have hpend : PendShape (locs.length + 1) lk rk h0 l0
      (run (initState l0 h0) ((locs ++ [(lk, rk)]).map navEvent)) := by
    rw [hmid]
    have hp := navigateWith_pendShape (run (initState l0 h0) (locs.map navEvent)) lk rk f2 f3
    rw [h5b, f1, f4] at hp
    exact hp
  have hsplit : run (initState l0 h0)
      ((locs ++ [(lk, rk)]).map navEvent ++
        ord.map (fun i => Event.settle (i.val + 1) (FetchOutcome.success (resp i))))
      = run (run (initState l0 h0) ((locs ++ [(lk, rk)]).map navEvent))
          (settleEvents (ord.map (fun i =>
            ((i.val + 1 : Nat), FetchOutcome.success (resp i))))) := by
    simp only [run, List.foldl_append, settleEvents, List.map_map]
    rfl
  have hdoneL : DoneShape (locs.length + 1) lk rk h0
      (resp ⟨locs.length, Nat.lt_succ_self _⟩)
      (run (initState l0 h0)
        ((locs ++ [(lk, rk)]).map navEvent ++
          ord.map (fun i => Event.settle (i.val + 1) (FetchOutcome.success (resp i))))) := by
    rw [hsplit]
    refine run_settles_pend _ _ hpend ?_ ?_
    · intro p hp hpm
      obtain ⟨i, hi, rfl⟩ := List.mem_map.mp hp
      have hiv : i.val + 1 = locs.length + 1 := hpm
      have hieq : i = ⟨locs.length, Nat.lt_succ_self _⟩ := by
        apply Fin.ext
        show i.val = locs.length
        omega
      rw [hieq]
    · refine ⟨(fun i => ((i.val + 1 : Nat), FetchOutcome.success (resp i)))
        ⟨locs.length, Nat.lt_succ_self _⟩, ?_, rfl⟩
      exact List.mem_map_of_mem _ (hord.mem_iff.mpr (List.mem_finRange _))
  have hpend1 : PendShape 1 lk rk h0 l0 (navigateWith (initState l0 h0) lk rk) :=
    navigateWith_pendShape (initState l0 h0) lk rk rfl rfl
  have hdoneR : DoneShape 1 lk rk h0 (resp ⟨locs.length, Nat.lt_succ_self _⟩)
      (run (initState l0 h0)
        [navEvent (lk, rk),
          Event.settle 1 (FetchOutcome.success (resp ⟨locs.length, Nat.lt_succ_self _⟩))]) := by
    have hrw : run (initState l0 h0)
        [navEvent (lk, rk),
          Event.settle 1 (FetchOutcome.success (resp ⟨locs.length, Nat.lt_succ_self _⟩))]
        = settle (navigateWith (initState l0 h0) lk rk) 1
            (FetchOutcome.success (resp ⟨locs.length, Nat.lt_succ_self _⟩)) := rfl
    rw [hrw]
    exact pendShape_settle_latest hpend1 _
  rw [doneShape_observable hdoneL, doneShape_observable hdoneR]

/-- Witness for C1: two overlapping navigations to "/a" then "/b", with
the fetches resolving oldest-last, commit exactly what navigating to
"/b" alone commits. -/
theorem latest_wins_witness :
    ([(⟨1, by decide⟩ : Fin 2), ⟨0, by decide⟩].Perm (List.finRange 2)) ∧
    observable (run (initState "/" [])
        (([("/a", false)] ++ [("/b", false)]).map navEvent ++
          [(⟨1, by decide⟩ : Fin 2), ⟨0, by decide⟩].map
            (fun i => Event.settle (i.val + 1)
              (FetchOutcome.success (if i.val = 0 then ⟨true, "A"⟩ else ⟨true, "B"⟩))))) =
    observable (run (initState "/" [])
        [navEvent ("/b", false),
          Event.settle 1 (FetchOutcome.success
            (if (⟨(1 : Nat), by decide⟩ : Fin 2).val = 0 then ⟨true, "A"⟩ else ⟨true, "B"⟩))]) := by
  refine ⟨by decide, ?_⟩
  exact latest_wins "/" [] [("/a", false)] "/b" false
    [⟨1, by decide⟩, ⟨0, by decide⟩] (by decide)
    (fun i => if i.val = 0 then ⟨true, "A"⟩ else ⟨true, "B"⟩)

/-- The history-call log after a settlement, by the token check's result. -/
lemma settleWith_histLog (s : RouterState) (id : Nat) (a : Attempt) (o : FetchOutcome) :
    (settleWith s id a o).histLog =
      if (resolveOutcome a s.latestNav id o).2 then s.histLog ++ [(a.replace, a.loc)]
      else s.histLog := by
  unfold settleWith
  by_cases hi : id = s.installed <;> simp [hi]

/-- C2 counterexample.
The claim says a popstate mints a fresh token that becomes latest, so a
previously initiated navigation that resolves afterwards commits
nothing.  In the code handlePopState never touches latestNav: after
navigate("/a") and then a popstate to "/b", the old navigation's token
is still the latest, and when its fetch resolves it pushes "/a" onto the
browser history. -/
theorem popstate_supersede_cex :
    (run (initState "/" []) [.pop "/b"]).latestNav = (initState "/" []).latestNav ∧
    (run (initState "/" []) [.nav "/a" false, .pop "/b"]).latestNav = some 1 ∧
    (run (initState "/" []) [.nav "/a" false, .pop "/b",
      .settle 1 (.success ⟨true, "A"⟩)]).histLog = [(false, "/a")] := by
  exact ⟨rfl, rfl, by decide⟩

/-- C2 (amended).
For every popstate event, the handler fetches content for the
externally observed location (one request to its rsc path), updates
nextLocation immediately, installs a fresh content promise in a
transition and performs no history push or replace; however it does not
mint a token — latestNav is unchanged — so navigations initiated before
it are not superseded by it. -/
theorem popstate_amended (s : RouterState) (loc : String) :
    (handlePopState s loc).requests = s.requests ++ [rscPath loc] ∧
    (handlePopState s loc).nextLocation = loc ∧
    (handlePopState s loc).histLog = s.histLog ∧
    (handlePopState s loc).histStack = s.histStack ∧
    (handlePopState s loc).latestNav = s.latestNav ∧
    (handlePopState s loc).installed = s.attempts.length ∧
    (handlePopState s loc).attempts
      = s.attempts ++ [⟨AttemptKind.pop, loc, false, PromiseStatus.unsettled⟩] ∧
    (handlePopState s loc).transitionActive = true :=
  ⟨rfl, rfl, rfl, rfl, rfl, rfl, rfl, rfl⟩

/-- C3.
Superseded-silent: in any reachable state, settling the fetch of a
navigate attempt whose token is no longer the latest — with any outcome,
fulfilment or rejection — changes nothing observable: no history call,
no history-stack change, no published router-state field, no installed
promise change, and no error surfaces to the error boundary. -/
theorem superseded_silent (s : RouterState) (hr : Reachable s)
    (id : Nat) (a : Attempt) (ha : s.attempts[id]? = some a)
    (hk : a.kind = AttemptKind.nav) (hl : s.latestNav ≠ some id)
    (o : FetchOutcome) :
    observable (settle s id o) = observable s := by
  obtain ⟨-, hinst, -⟩ := reachable_inv s hr
  have hni : id ≠ s.installed := by
    intro hh
    subst hh
    exact hl (hinst a ha hk)
  exact settle_quiet_observable s id o hni hl

/-- Witness for C3: after navigate("/a") then navigate("/b"), a network
failure of the superseded "/a" fetch leaves everything observable as it
was. -/
theorem superseded_silent_witness :
    Reachable (run (initState "/" []) [.nav "/a" false, .nav "/b" false]) ∧
    observable (settle (run (initState "/" []) [.nav "/a" false, .nav "/b" false]) 1
        FetchOutcome.failure)
      = observable (run (initState "/" []) [.nav "/a" false, .nav "/b" false]) := by
  refine ⟨⟨"/", [], [.nav "/a" false, .nav "/b" false], rfl⟩, ?_⟩
  exact superseded_silent _ ⟨"/", [], [.nav "/a" false, .nav "/b" false], rfl⟩
    1 ⟨AttemptKind.nav, "/a", false, PromiseStatus.unsettled⟩ (by decide) rfl (by decide)
    FetchOutcome.failure

/-- C4.
No premature history mutation: a step changes the pushState/replaceState
call log only when it is the settlement, with a successful response, of
a navigate attempt whose token still equals the latest token and whose
promise was still unsettled — and then by exactly the one call for that
attempt's destination and mode.  In particular a rejected fetch, or a
settlement of a superseded navigation, never mutates history, and no
initiation does. -/
theorem no_premature_history (s : RouterState) (e : Event) :
    (step s e).histLog = s.histLog ∨
    ∃ id r loc rep, e = Event.settle id (FetchOutcome.success r) ∧
      s.latestNav = some id ∧
      s.attempts[id]? = some ⟨AttemptKind.nav, loc, rep, PromiseStatus.unsettled⟩ ∧
      (step s e).histLog = s.histLog ++ [(rep, loc)] := by
  cases e with
  | nav loc r => exact Or.inl rfl
  | pop loc => exact Or.inl rfl
  | settle id o =>
    simp only [step]
    rcases settle_cases s id o with h | ⟨a, ha, hs, h⟩
    · exact Or.inl (by rw [h])
    · rcases a with ⟨k, aloc, arep, st⟩
      have hst : st = PromiseStatus.unsettled := hs
      subst hst
      by_cases hl : s.latestNav = some id
      · cases k with
        | nav =>
          cases o with
          | success r =>
            refine Or.inr ⟨id, r, aloc, arep, rfl, hl, ha, ?_⟩
            rw [h, settleWith_histLog]
            simp [resolveOutcome, hl]
          | failure =>
            refine Or.inl ?_
            rw [h, settleWith_histLog]
            simp [resolveOutcome]
        | initial =>
          refine Or.inl ?_
          rw [h, settleWith_histLog]
          cases o <;> simp [resolveOutcome]
        | pop =>
          refine Or.inl ?_
          rw [h, settleWith_histLog]
          cases o <;> simp [resolveOutcome]
      · refine Or.inl ?_
        rw [h, settleWith_histLog]
        rw [resolveOutcome_snd_false _ _ _ _ hl]
        simp

/-- C5 counterexample.
The claim says every attempt, the initial load and popstate attempts
included, mints a token, and the latest token is the most recent
attempt's.  In the code only navigate mints one: after the initial load
and a popstate there have been two attempts and latestNav is still
null. -/
theorem token_per_attempt_cex :
    (run (initState "/" []) [.pop "/a"]).attempts.length = 2 ∧
    (run (initState "/" []) [.pop "/a"]).latestNav = none :=
  ⟨rfl, rfl⟩

/-- C5 (amended).
Only navigate mints tokens: each call mints a fresh token — the new
attempt index, strictly above every token a reachable state holds as
latest — which immediately becomes the latest token; the initial load
starts with no latest token (latestNav is null) and popstate leaves the
latest token unchanged. -/
theorem token_per_attempt_amended (s : RouterState) (hr : Reachable s)
    (loc loc2 l0 : String) (rep : Bool) (h0 : List String) :
    (navigateWith s loc rep).latestNav = some s.attempts.length ∧
    (∀ t, s.latestNav = some t → t < s.attempts.length) ∧
    (handlePopState s loc2).latestNav = s.latestNav ∧
    (initState l0 h0).latestNav = none := by
  obtain ⟨-, -, hlt⟩ := reachable_inv s hr
  exact ⟨rfl, hlt, rfl, rfl⟩

/-- Witness for C5 (amended) at the freshly loaded state. -/
theorem token_per_attempt_amended_witness :
    Reachable (initState "/" []) ∧
    ((navigateWith (initState "/" []) "/a" false).latestNav
        = some (initState "/" []).attempts.length ∧
      (∀ t, (initState "/" []).latestNav = some t
        → t < (initState "/" []).attempts.length) ∧
      (handlePopState (initState "/" []) "/b").latestNav = (initState "/" []).latestNav ∧
      (initState "/x" ["/"]).latestNav = none) :=
  ⟨⟨"/", [], [], rfl⟩,
    token_per_attempt_amended _ ⟨"/", [], [], rfl⟩ "/a" "/b" "/x" false ["/"]⟩

/-- C6 counterexample.
The claim says the handle is rejected whenever the request receives a
non-success response.  fetchContent returns the platform fetch handle
unchanged, and fetch fulfils on any HTTP response: a response with
ok = false yields a fulfilled handle. -/
theorem fetcher_contract_cex :
    (fetchContent "/x" (.success ⟨false, "not found"⟩)).2
      = HandleState.fulfilled ⟨false, "not found"⟩ ∧
    (fetchContent "/x" (.success ⟨false, "not found"⟩)).2 ≠ HandleState.rejected := by
  exact ⟨rfl, by decide⟩

/-- C6 (amended).
fetchContent returns a handle that is rejected exactly on network
failure; any HTTP response — success or not — fulfils it unchanged (no
status check); the request goes to the rsc path of the location, and the
Fetcher issues exactly one request per call and never retries. -/
theorem fetcher_contract_amended (loc : String) (r : Resp) (s : RouterState) (rep : Bool) :
    (fetchContent loc FetchOutcome.failure).2 = HandleState.rejected ∧
    (fetchContent loc (.success r)).2 = HandleState.fulfilled r ∧
    (fetchContent loc FetchOutcome.failure).1 = rscPath loc ∧
    (navigateWith s loc rep).requests = s.requests ++ [rscPath loc] ∧
    (handlePopState s loc).requests = s.requests ++ [rscPath loc] :=
  ⟨rfl, rfl, rfl, rfl, rfl⟩

/-- C7 counterexample.
The claim says isPending is false outside the interval ending at the
committing Resolve of the currently-latest token.  After navigate("/a")
(token 1) and a popstate to "/b", token 1 is still the latest; when its
fetch resolves it passes the token check and performs its committing
history push — yet isPending remains true, because the installed content
promise is the popstate's, which is still unsettled. -/
theorem pending_flag_cex :
    (run (initState "/" []) [.nav "/a" false, .pop "/b",
      .settle 1 (.success ⟨true, "A"⟩)]).latestNav = some 1 ∧
    (run (initState "/" []) [.nav "/a" false, .pop "/b",
      .settle 1 (.success ⟨true, "A"⟩)]).histLog = [(false, "/a")] ∧
    (run (initState "/" []) [.nav "/a" false, .pop "/b",
      .settle 1 (.success ⟨true, "A"⟩)]).transitionActive = true := by
  decide

/-- C7 (amended).
isPending becomes true at every Initiate — navigate or popstate — and
becomes false exactly when the currently installed content promise
settles; settling any non-installed promise leaves it unchanged.  For
navigate-only sequences this interval ends precisely at the latest
token's committing Resolve; after a popstate, a prior latest
navigation's committing Resolve does not clear it. -/
theorem pending_flag_amended (s : RouterState) (loc : String) (rep : Bool)
    (id : Nat) (a : Attempt) (o : FetchOutcome)
    (ha : s.attempts[id]? = some a) (hu : a.status = PromiseStatus.unsettled) :
    (navigateWith s loc rep).transitionActive = true ∧
    (handlePopState s loc).transitionActive = true ∧
    (id = s.installed → (settle s id o).transitionActive = false) ∧
    (id ≠ s.installed → (settle s id o).transitionActive = s.transitionActive) := by
  refine ⟨rfl, rfl, ?_, ?_⟩
  · intro hi
    rw [settle_of_unsettled o ha hu]
    unfold settleWith
    simp [hi]
  · intro hi
    rw [settle_of_unsettled o ha hu]
    unfold settleWith
    simp [hi]

/-- Witness for C7 (amended): right after navigate("/a"), settling the
installed promise (index 1) ends the transition. -/
theorem pending_flag_amended_witness :
    (run (initState "/" []) [.nav "/a" false]).attempts[1]?
      = some ⟨AttemptKind.nav, "/a", false, PromiseStatus.unsettled⟩ ∧
    ((navigateWith (run (initState "/" []) [.nav "/a" false]) "/c" false).transitionActive
        = true ∧
      (handlePopState (run (initState "/" []) [.nav "/a" false]) "/c").transitionActive
        = true ∧
      (1 = (run (initState "/" []) [.nav "/a" false]).installed →
        (settle (run (initState "/" []) [.nav "/a" false]) 1
          (.success ⟨true, "A"⟩)).transitionActive = false) ∧
      (1 ≠ (run (initState "/" []) [.nav "/a" false]).installed →
        (settle (run (initState "/" []) [.nav "/a" false]) 1
          (.success ⟨true, "A"⟩)).transitionActive
          = (run (initState "/" []) [.nav "/a" false]).transitionActive)) :=
  ⟨by decide,
    pending_flag_amended (run (initState "/" []) [.nav "/a" false]) "/c" false 1
      ⟨AttemptKind.nav, "/a", false, PromiseStatus.unsettled⟩ (.success ⟨true, "A"⟩)
      (by decide) rfl⟩

/-- C8.
History mode semantics: navigate defaults to push mode when no options
are given; when the navigation commits, replace mode overwrites the top
history entry with the destination without adding an entry (the stack
keeps its length), while push mode adds a new entry for the
destination. -/
theorem history_mode (s : RouterState) (loc l0 : String) (h0 : List String)
    (hne : h0 ≠ []) (r : Resp) :
    navigate s loc = navigateWith s loc false ∧
    navigate s loc (some true) = navigateWith s loc true ∧
    (run (initState l0 h0) [.nav loc true, .settle 1 (.success r)]).histStack
      = loc :: h0.tail ∧
    (run (initState l0 h0) [.nav loc true, .settle 1 (.success r)]).histStack.length
      = h0.length ∧
    (run (initState l0 h0) [.nav loc false, .settle 1 (.success r)]).histStack
      = loc :: h0 ∧
    (run (initState l0 h0) [.nav loc false, .settle 1 (.success r)]).histStack.length
      = h0.length + 1 := by
  have hgen : ∀ rep : Bool,
      (run (initState l0 h0) [.nav loc rep, .settle 1 (.success r)]).histStack
        = applyHistoryCall rep loc h0 := by
    intro rep
    have hpend1 : PendShape 1 loc rep h0 l0 (navigateWith (initState l0 h0) loc rep) :=
      navigateWith_pendShape (initState l0 h0) loc rep rfl rfl
    have hdone := pendShape_settle_latest hpend1 r
    exact hdone.2.2.2.2.1
  have htail : (loc :: h0.tail).length = h0.length := by
    cases h0 with
    | nil => exact absurd rfl hne
    | cons x xs => simp
  refine ⟨rfl, rfl, ?_, ?_, ?_, ?_⟩
  · rw [hgen true]; simp [applyHistoryCall]
  · rw [hgen true]; simp only [applyHistoryCall, if_pos]; exact htail
  · rw [hgen false]; simp [applyHistoryCall]
  · rw [hgen false]; simp [applyHistoryCall]

/-- Witness for C8 with a one-entry existing history. -/
theorem history_mode_witness :
    ((["/"] : List String) ≠ []) ∧
    (navigate (initState "/" ["/"]) "/x" = navigateWith (initState "/" ["/"]) "/x" false ∧
      navigate (initState "/" ["/"]) "/x" (some true)
        = navigateWith (initState "/" ["/"]) "/x" true ∧
      (run (initState "/" ["/"]) [.nav "/x" true,
        .settle 1 (.success ⟨true, "X"⟩)]).histStack = "/x" :: (["/"] : List String).tail ∧
      (run (initState "/" ["/"]) [.nav "/x" true,
        .settle 1 (.success ⟨true, "X"⟩)]).histStack.length = (["/"] : List String).length ∧
      (run (initState "/" ["/"]) [.nav "/x" false,
        .settle 1 (.success ⟨true, "X"⟩)]).histStack = "/x" :: ["/"] ∧
      (run (initState "/" ["/"]) [.nav "/x" false,
        .settle 1 (.success ⟨true, "X"⟩)]).histStack.length
        = (["/"] : List String).length + 1) :=
  ⟨by decide, history_mode (initState "/" ["/"]) "/x" "/" ["/"] (by decide) ⟨true, "X"⟩⟩

/-- C9.
Request path derivation: every fetch goes to the location prefixed by
the single fixed route segment "/rsc"; each initiation — navigate,
popstate or the initial load — issues exactly one outbound request, with
no deduplication (two successive navigations to the same location issue
two identical requests), and settlements issue none. -/
theorem request_path_derivation (s : RouterState) (loc l0 : String) (rep rep2 : Bool)
    (h0 : List String) (id : Nat) (o : FetchOutcome) :
    rscPath loc = "/rsc" ++ loc ∧
    (fetchContent loc o).1 = rscPath loc ∧
    (navigateWith s loc rep).requests = s.requests ++ [rscPath loc] ∧
    (handlePopState s loc).requests = s.requests ++ [rscPath loc] ∧
    (initState l0 h0).requests = [rscPath l0] ∧
    (navigateWith (navigateWith s loc rep) loc rep2).requests
      = s.requests ++ [rscPath loc, rscPath loc] ∧
    (settle s id o).requests = s.requests := by
  refine ⟨rfl, rfl, rfl, rfl, rfl, ?_, settle_requests s id o⟩
  simp [navigateWith]

/-- C10.
Superseded futures resolve to undefined: in any reachable state, when
the fetch of a navigate attempt fulfils but its token is no longer the
latest, the token-check branch returns undefined, so the attempt's
promise fulfils with none rather than with the response; and that
promise is not — and, being older than the installed one, never again
becomes — the installed contentPromise, so the undefined value is never
consumed by the renderer. -/
theorem superseded_undefined (s : RouterState) (hr : Reachable s)
    (id : Nat) (loc : String) (rep : Bool) (r : Resp)
    (ha : s.attempts[id]? = some ⟨AttemptKind.nav, loc, rep, PromiseStatus.unsettled⟩)
    (hl : s.latestNav ≠ some id) :
    (settle s id (.success r)).attempts[id]?
      = some ⟨AttemptKind.nav, loc, rep, PromiseStatus.fulfilled none⟩ ∧
    (settle s id (.success r)).installed = s.installed ∧
    id < s.installed := by
  obtain ⟨hlen, hinst, -⟩ := reachable_inv s hr
  have hni : id ≠ s.installed := by
    intro hh
    subst hh
    exact hl (hinst _ ha rfl)
  have hlt : id < s.attempts.length := (List.getElem?_eq_some_iff.mp ha).1
  refine ⟨?_, settle_installed s id _, by omega⟩
  rw [settle_of_unsettled _ ha rfl, settleWith_attempts, List.getElem?_set_self hlt]
  simp [resolveOutcome, hl]

/-- Witness for C10: the superseded "/a" fetch fulfils to undefined and
its promise stays uninstalled. -/
theorem superseded_undefined_witness :
    Reachable (run (initState "/" []) [.nav "/a" false, .nav "/b" false]) ∧
    ((settle (run (initState "/" []) [.nav "/a" false, .nav "/b" false]) 1
        (.success ⟨true, "A"⟩)).attempts[1]?
        = some ⟨AttemptKind.nav, "/a", false, PromiseStatus.fulfilled none⟩ ∧
      (settle (run (initState "/" []) [.nav "/a" false, .nav "/b" false]) 1
          (.success ⟨true, "A"⟩)).installed
        = (run (initState "/" []) [.nav "/a" false, .nav "/b" false]).installed ∧
      1 < (run (initState "/" []) [.nav "/a" false, .nav "/b" false]).installed) :=
  ⟨⟨"/", [], [.nav "/a" false, .nav "/b" false], rfl⟩,
    superseded_undefined _ ⟨"/", [], [.nav "/a" false, .nav "/b" false], rfl⟩
      1 "/a" false ⟨true, "A"⟩ (by decide) (by decide)⟩
